import Mathlib

/-!
Shallow embedding of the magic-link authentication core of the CRM
repository (src/auth/...), together with proofs of the specification
claims about it.

Modelling conventions:
- Time is a natural number of seconds (`World.now`); within one service
  call every `now_utc()` read returns the same instant.
- The Valkey TTL store (`clients/valkey_client.py`) is a partial map from
  string keys to entries carrying an optional absolute expiry instant; a
  key whose expiry instant has been reached behaves as absent (redis
  semantics).  Stored values are either integer counters (redis strings
  holding integers, as produced by INCR) or the JSON session records
  written by `set_json`.
- The relational tables (`users`, `magic_link_tokens`, `security_events`)
  are lists of rows; SQL `SELECT ... WHERE` is `List.find?`, `UPDATE` is
  `List.map` over the rows.
- `secrets.token_urlsafe` outcomes are drawn from an oracle stream
  `tokenOracle`; the email gateway and the audit-log INSERT are fallible
  external effects whose outcomes are drawn from the oracles
  `emailOracle` and `logOracle` (index = call number).
-/

/-- Error kinds raised by the auth core (src/auth/exceptions.py), plus
`storeFailure` for a propagating database or redis driver error and
`emailGateway` for `EmailGatewayError` from the email client. -/
inductive AuthErr where
  | invalidToken (msg : String)
  | rateLimited (retryAfterSeconds : Nat)
  | userInactive (msg : String)
  | sessionExpired (msg : String)
  | emailGateway
  | storeFailure
deriving DecidableEq, Repr

/-- Row of the `users` table (src/auth/types.py User / auth schema). -/
structure UserRow where
  id : String
  email : String
  isActive : Bool
  createdAt : Nat
  lastLoginAt : Option Nat
deriving DecidableEq, Repr

/-- Row of the `magic_link_tokens` table (token is the primary key). -/
structure MagicLinkToken where
  token : String
  userId : String
  email : String
  createdAt : Nat
  expiresAt : Nat
  used : Bool
  usedAt : Option Nat
deriving DecidableEq, Repr

/-- The session record stored as JSON under `session:<token>`
(src/auth/session.py `set_json` payload). -/
structure SessData where
  userId : String
  createdAt : Nat
  expiresAt : Nat
  lastActivityAt : Nat
deriving DecidableEq, Repr

/-- A value held by the TTL store: an integer counter (rate-limit and
enumeration keys) or a JSON session record (session keys). -/
inductive VVal where
  | counter (n : Nat)
  | json (s : SessData)
deriving DecidableEq, Repr

/-- A TTL-store entry: value plus optional absolute expiry instant. -/
structure VEntry where
  val : VVal
  expireAt : Option Nat
deriving DecidableEq, Repr

/-- Security event types (src/auth/security_logger.py SecurityEvent). -/
inductive SecurityEvent where
  | magicLinkRequested
  | magicLinkSent
  | magicLinkVerified
  | magicLinkFailed
  | magicLinkExpired
  | magicLinkAlreadyUsed
  | sessionCreated
  | sessionExtended
  | sessionExpired
  | sessionRevoked
  | rateLimited
  | userCreated
  | userDeactivated
  | userActivated
deriving DecidableEq, Repr

/-- Row of the append-only `security_events` table. -/
structure EventRow where
  eventType : SecurityEvent
  email : Option String
  userId : Option String
  ipAddress : Option String
  userAgent : Option String
  details : Option String
  createdAt : Nat
deriving DecidableEq, Repr

/-- Global state threaded through the auth operations: the relational
tables, the TTL store, the clock, and the outcome oracles for token
generation, audit-log inserts and email sends. -/
structure World where
  users : List UserRow
  tokens : List MagicLinkToken
  events : List EventRow
  kv : String → Option VEntry
  now : Nat
  tokenOracle : Nat → String
  tokenIdx : Nat
  logOracle : Nat → Bool
  logIdx : Nat
  emailOracle : Nat → Bool
  emailIdx : Nat

/-- Authentication configuration (src/auth/config.py), with the pydantic
Field bounds expressed separately by `AuthConfig.valid`. -/
structure AuthConfig where
  magicLinkExpiryMinutes : Nat
  sessionExpiryHours : Nat
  sessionExtendOnActivity : Bool
  sessionExtendThresholdHours : Nat
  rateLimitAttempts : Nat
  rateLimitWindowMinutes : Nat
  appBaseUrl : String
  appName : String
deriving DecidableEq, Repr

/-- The pydantic `Field(ge=..., le=...)` bounds of AuthConfig. -/
def AuthConfig.valid (c : AuthConfig) : Prop :=
  5 ≤ c.magicLinkExpiryMinutes ∧ c.magicLinkExpiryMinutes ≤ 60 ∧
  1 ≤ c.sessionExpiryHours ∧ c.sessionExpiryHours ≤ 2160 ∧
  1 ≤ c.sessionExtendThresholdHours ∧
  1 ≤ c.rateLimitAttempts ∧ c.rateLimitAttempts ≤ 20 ∧
  5 ≤ c.rateLimitWindowMinutes ∧ c.rateLimitWindowMinutes ≤ 60

instance (c : AuthConfig) : Decidable c.valid := by
  unfold AuthConfig.valid; infer_instance

/-! ### TTL store primitives (clients/valkey_client.py) -/

/-- Live lookup: redis treats a key whose expiry instant has been reached
as absent. -/
def vlookup (w : World) (k : String) : Option VEntry :=
  match w.kv k with
  | none => none
  | some e =>
    match e.expireAt with
    | none => some e
    | some t => if w.now < t then some e else none

/-- ValkeyClient.get / get_json: value of a live key. -/
def vget (w : World) (k : String) : Option VVal :=
  (vlookup w k).map VEntry.val

/-- Raw overwrite of one key of the TTL store. -/
def kvSet (w : World) (k : String) (e : VEntry) : World :=
  { w with kv := fun q => if q = k then some e else w.kv q }

/-- ValkeyClient.delete. -/
def kvDel (w : World) (k : String) : World :=
  { w with kv := fun q => if q = k then none else w.kv q }

/-- ValkeyClient.ttl: -2 when the key is absent, -1 when it has no
expiry, otherwise the remaining seconds. -/
def vttl (w : World) (k : String) : Int :=
  match vlookup w k with
  | none => -2
  | some e =>
    match e.expireAt with
    | none => -1
    | some t => (t : Int) - (w.now : Int)

/-- ValkeyClient.incr: creates the key holding 1 (no expiry) when absent,
otherwise increments, preserving the remaining TTL.  INCR on a value that
is not an integer is a redis type error, which propagates. -/
def vincr (w : World) (k : String) : Except AuthErr (Nat × World) :=
  match vlookup w k with
  | none => .ok (1, kvSet w k ⟨.counter 1, none⟩)
  | some e =>
    match e.val with
    | .counter n => .ok (n + 1, kvSet w k ⟨.counter (n + 1), e.expireAt⟩)
    | .json _ => .error .storeFailure

/-- Modelled from the spec: `ValkeyClient.expire` is called by
RateLimiter.check_rate_limit and by the enumeration counter and exercised
by tests/clients/test_valkey_client.py, but the method body is not in
src/clients/valkey_client.py.  Following the spec (a TTL that is reset to
the full window duration) and the tests (sets a TTL on an existing key
and returns True, returns False for a missing key), it sets the expiry of
a live key to now + seconds. -/
def vexpire (w : World) (k : String) (seconds : Nat) : Bool × World :=
  match vlookup w k with
  | none => (false, w)
  | some e => (true, kvSet w k ⟨e.val, some (w.now + seconds)⟩)

/-- ValkeyClient.set_json with an expire_seconds argument. -/
def vsetJson (w : World) (k : String) (s : SessData) (seconds : Nat) : World :=
  kvSet w k ⟨.json s, some (w.now + seconds)⟩

/-! ### String normalization -/

/-- Python str.lower as used on emails, written over the character list
so that it evaluates by kernel reduction. -/
def strLower (s : String) : String := ⟨s.data.map Char.toLower⟩

/-- Python str.strip (leading and trailing whitespace removal), written
over the character list so that it evaluates by kernel reduction. -/
def strTrim (s : String) : String :=
  ⟨((s.data.dropWhile Char.isWhitespace).reverse.dropWhile Char.isWhitespace).reverse⟩

/-! ### Key derivation -/

/-- RateLimiter._key: KEY_PREFIX plus the lowercased email. -/
def rateLimitKey (email : String) : String :=
  "ratelimit:magic_link:" ++ strLower email

/-- AuthService._enumeration_key. -/
def enumerationKey (ip : String) : String :=
  "enumeration:" ++ ip

/-- SessionManager._key. -/
def sessionKey (token : String) : String :=
  "session:" ++ token

/-! ### AuthDatabase (src/auth/database.py) -/

/-- AuthDatabase.get_user_by_email: SELECT ... WHERE email = lower(input). -/
def getUserByEmail (w : World) (email : String) : Option UserRow :=
  w.users.find? (fun u => u.email == strLower email)

/-- AuthDatabase.get_user_by_id. -/
def getUserById (w : World) (uid : String) : Option UserRow :=
  w.users.find? (fun u => u.id == uid)

/-- AuthDatabase.update_last_login: UPDATE users SET last_login_at = now. -/
def updateLastLogin (w : World) (uid : String) : World :=
  let f := fun (u : UserRow) =>
    if u.id == uid then { u with lastLoginAt := some w.now } else u
  { w with users := w.users.map f }

/-- AuthDatabase.store_magic_link_token: INSERT. -/
def storeMagicLinkToken (w : World) (t : MagicLinkToken) : World :=
  { w with tokens := w.tokens ++ [t] }

/-- AuthDatabase.get_magic_link_token: SELECT ... WHERE token = input. -/
def getMagicLinkToken (w : World) (tok : String) : Option MagicLinkToken :=
  w.tokens.find? (fun t => t.token == tok)

/-- AuthDatabase.mark_token_used: an unconditional
`UPDATE magic_link_tokens SET used = true, used_at = now WHERE token = input`
(no condition on the current value of `used`). -/
def markTokenUsed (w : World) (tok : String) : World :=
  let f := fun (t : MagicLinkToken) =>
    if t.token == tok then { t with used := true, usedAt := some w.now } else t
  { w with tokens := w.tokens.map f }

/-! ### SecurityLogger (src/auth/security_logger.py) -/

/-- SecurityLogger.log: a single INSERT into security_events.  The method
has no exception handling, so a failing INSERT (outcome drawn from
`logOracle` at the call index) propagates to the caller as a store
failure; a failed INSERT appends no row. -/
def securityLog (w : World) (ev : SecurityEvent) (email userId ip ua det : Option String) :
    Except AuthErr Unit × World :=
  if w.logOracle w.logIdx then
    (.ok (), { w with
      events := w.events ++ [⟨ev, email, userId, ip, ua, det, w.now⟩],
      logIdx := w.logIdx + 1 })
  else
    (.error .storeFailure, { w with logIdx := w.logIdx + 1 })

/-! ### RateLimiter (src/auth/rate_limiter.py) -/

/-- Window duration in seconds: rate_limit_window_minutes * 60. -/
def windowSeconds (cfg : AuthConfig) : Nat :=
  cfg.rateLimitWindowMinutes * 60

/-- Retry-after derivation: max(ttl, 1), clamped to a natural number. -/
def retryAfter (ttl : Int) : Nat :=
  (max ttl 1).toNat

/-- RateLimiter.check_rate_limit: increment the counter, reset the TTL of
the key to the full window on every attempt, then raise RateLimited when
the post-increment count exceeds the configured threshold, with
retry-after = max(current ttl, 1). -/
def checkRateLimit (cfg : AuthConfig) (w : World) (email : String) :
    Except AuthErr Unit × World :=
  let key := rateLimitKey email
  match vincr w key with
  | .error e => (.error e, w)
  | .ok (count, w) =>
    let w := (vexpire w key (windowSeconds cfg)).2
    if count > cfg.rateLimitAttempts then
      (.error (.rateLimited (retryAfter (vttl w key))), w)
    else
      (.ok (), w)

/-- RateLimiter.reset_rate_limit: delete the key. -/
def resetRateLimit (w : World) (email : String) : World :=
  kvDel w (rateLimitKey email)

/-- RateLimiter.get_remaining_attempts: threshold when no counter exists,
otherwise max(threshold - count, 0) (truncated subtraction).  Reading a
non-integer value is an int() parse error, which propagates. -/
def getRemainingAttempts (cfg : AuthConfig) (w : World) (email : String) :
    Except AuthErr Nat :=
  match vget w (rateLimitKey email) with
  | none => .ok cfg.rateLimitAttempts
  | some (.counter n) => .ok (cfg.rateLimitAttempts - n)
  | some (.json _) => .error .storeFailure

/-! ### Enumeration guard (class constants and helpers of AuthService) -/

/-- AuthService.ENUMERATION_LIMIT. -/
def enumerationLimit : Nat := 3

/-- AuthService.ENUMERATION_WINDOW_SECONDS. -/
def enumerationWindowSeconds : Nat := 900

/-- AuthService._check_enumeration_limit: read-only check; raises
RateLimited when the counter for the origin is at or above the limit. -/
def checkEnumerationLimit (w : World) (ip : String) : Except AuthErr Unit :=
  match vget w (enumerationKey ip) with
  | none => .ok ()
  | some (.counter n) =>
    if n ≥ enumerationLimit then
      .error (.rateLimited (retryAfter (vttl w (enumerationKey ip))))
    else
      .ok ()
  | some (.json _) => .error .storeFailure

/-- AuthService._increment_enumeration_counter: increment, and set the
expiry only when the post-increment count is 1 (first attempt). -/
def incrementEnumerationCounter (w : World) (ip : String) :
    Except AuthErr Unit × World :=
  match vincr w (enumerationKey ip) with
  | .error e => (.error e, w)
  | .ok (count, w) =>
    if count == 1 then
      (.ok (), (vexpire w (enumerationKey ip) enumerationWindowSeconds).2)
    else
      (.ok (), w)

/-- AuthService._reset_enumeration_counter. -/
def resetEnumerationCounter (w : World) (ip : String) : World :=
  kvDel w (enumerationKey ip)

/-! ### SessionManager (src/auth/session.py) -/

/-- Session value returned to callers (src/auth/types.py Session). -/
structure Session where
  token : String
  userId : String
  createdAt : Nat
  expiresAt : Nat
  lastActivityAt : Nat
deriving DecidableEq, Repr

/-- Session lifetime in seconds: session_expiry_hours * 3600 (both the
embedded expires_at and the store-level TTL use this same duration). -/
def sessionLifetimeSeconds (cfg : AuthConfig) : Nat :=
  cfg.sessionExpiryHours * 3600

/-- SessionManager.create_session: fresh random token from the oracle,
expires_at = now + lifetime, record stored under session:<token> with a
store TTL equal to the lifetime. -/
def createSession (cfg : AuthConfig) (w : World) (userId : String) :
    Session × World :=
  let token := w.tokenOracle w.tokenIdx
  let w := { w with tokenIdx := w.tokenIdx + 1 }
  let expiresAt := w.now + sessionLifetimeSeconds cfg
  let session : Session := ⟨token, userId, w.now, expiresAt, w.now⟩
  (session, vsetJson w (sessionKey token) ⟨userId, w.now, expiresAt, w.now⟩
    (sessionLifetimeSeconds cfg))

/-- SessionManager._extend_session: new expires_at = now + lifetime,
last_activity_at = now, record rewritten with a refreshed store TTL. -/
def extendSession (cfg : AuthConfig) (w : World) (s : Session) :
    Session × World :=
  let newExpires := w.now + sessionLifetimeSeconds cfg
  let updated : Session := ⟨s.token, s.userId, s.createdAt, newExpires, w.now⟩
  (updated, vsetJson w (sessionKey s.token)
    ⟨updated.userId, updated.createdAt, updated.expiresAt, updated.lastActivityAt⟩
    (sessionLifetimeSeconds cfg))

/-- SessionManager.validate_session: absent key raises SessionExpired; a
present record whose embedded expires_at has passed is deleted and raises
SessionExpired; otherwise the session is always extended (sliding
window).  A non-JSON value under a session key is a get_json parse error,
which propagates. -/
def validateSession (cfg : AuthConfig) (w : World) (token : String) :
    Except AuthErr Session × World :=
  match vget w (sessionKey token) with
  | none => (.error (.sessionExpired "Session not found or expired"), w)
  | some (.counter _) => (.error .storeFailure, w)
  | some (.json d) =>
    let s : Session := ⟨token, d.userId, d.createdAt, d.expiresAt, d.lastActivityAt⟩
    if w.now > s.expiresAt then
      (.error (.sessionExpired "Session expired"), kvDel w (sessionKey token))
    else
      let p := extendSession cfg w s
      (.ok p.1, p.2)

/-- SessionManager.revoke_session: delete the key; a no-op when absent. -/
def revokeSession (w : World) (token : String) : World :=
  kvDel w (sessionKey token)

/-! ### AuthService (src/auth/service.py) -/

/-- Result of AuthService.request_magic_link. -/
structure MagicLinkResult where
  sent : Bool
  needsSignup : Bool
deriving DecidableEq, Repr

/-- User info returned by verification (src/auth/types.py
AuthenticatedUser). -/
structure AuthenticatedUser where
  user : UserRow
  session : Session
deriving DecidableEq, Repr

/-- EmailGatewayClient.send_magic_link: an external gateway call whose
outcome is drawn from the email oracle; a failure raises
EmailGatewayError. -/
def sendMagicLinkEmail (w : World) : Except AuthErr Unit × World :=
  if w.emailOracle w.emailIdx then
    (.ok (), { w with emailIdx := w.emailIdx + 1 })
  else
    (.error .emailGateway, { w with emailIdx := w.emailIdx + 1 })

/-- AuthService.request_magic_link: normalize the email, check the
origin enumeration limit, look up the user; unknown email increments the
enumeration counter, logs and reports needs_signup; known email is
rate-limit checked, a fresh token (expires_at = now + expiry minutes) is
stored, events are logged around the email send, and sent is reported. -/
def requestMagicLink (cfg : AuthConfig) (w : World) (email ip ua : String) :
    Except AuthErr MagicLinkResult × World :=
  let email := strTrim (strLower email)
  match checkEnumerationLimit w ip with
  | .error e => (.error e, w)
  | .ok _ =>
    match getUserByEmail w email with
    | none =>
      match incrementEnumerationCounter w ip with
      | (.error e, w) => (.error e, w)
      | (.ok _, w) =>
        match securityLog w .magicLinkFailed (some email) none (some ip) (some ua)
            (some "user_not_found") with
        | (.error e, w) => (.error e, w)
        | (.ok _, w) => (.ok ⟨false, true⟩, w)
    | some user =>
      match checkRateLimit cfg w email with
      | (.error e, w) => (.error e, w)
      | (.ok _, w) =>
        let tokenValue := w.tokenOracle w.tokenIdx
        let w := { w with tokenIdx := w.tokenIdx + 1 }
        let t : MagicLinkToken :=
          ⟨tokenValue, user.id, user.email, w.now,
            w.now + cfg.magicLinkExpiryMinutes * 60, false, none⟩
        let w := storeMagicLinkToken w t
        match securityLog w .magicLinkRequested (some user.email) (some user.id)
            (some ip) (some ua) none with
        | (.error e, w) => (.error e, w)
        | (.ok _, w) =>
          match sendMagicLinkEmail w with
          | (.error e, w) => (.error e, w)
          | (.ok _, w) =>
            match securityLog w .magicLinkSent (some user.email) (some user.id)
                (some ip) none none with
            | (.error e, w) => (.error e, w)
            | (.ok _, w) => (.ok ⟨true, false⟩, w)

/-- Steps 1 to 5 of AuthService.verify_magic_link: the read/validation
phase (token lookup, used check, expiry check, user lookup, active
check).  Each failing branch logs a distinct event before raising; the
successful path performs no write. -/
def verifyValidatePhase (w : World) (token ip ua : String) :
    Except AuthErr (MagicLinkToken × UserRow) × World :=
  match getMagicLinkToken w token with
  | none =>
    match securityLog w .magicLinkFailed none none (some ip) (some ua)
        (some "token_not_found") with
    | (.error e, w) => (.error e, w)
    | (.ok _, w) => (.error (.invalidToken "Invalid or expired token"), w)
  | some mt =>
    if mt.used then
      match securityLog w .magicLinkAlreadyUsed (some mt.email) (some mt.userId)
          (some ip) (some ua) none with
      | (.error e, w) => (.error e, w)
      | (.ok _, w) => (.error (.invalidToken "Token has already been used"), w)
    else if w.now > mt.expiresAt then
      match securityLog w .magicLinkExpired (some mt.email) (some mt.userId)
          (some ip) (some ua) none with
      | (.error e, w) => (.error e, w)
      | (.ok _, w) => (.error (.invalidToken "Token has expired"), w)
    else
      match getUserById w mt.userId with
      | none => (.error (.invalidToken "User not found"), w)
      | some user =>
        if !user.isActive then
          match securityLog w .magicLinkFailed (some user.email) (some user.id)
              (some ip) (some ua) (some "user_inactive") with
          | (.error e, w) => (.error e, w)
          | (.ok _, w) => (.error (.userInactive "User account is deactivated"), w)
        else
          (.ok (mt, user), w)

/-- Steps 6 to 11 of AuthService.verify_magic_link: the write/commit
phase (mark the token used, create the session, update last_login, reset
both counters, log two events, re-read the user).  A failed user re-read
is a pydantic validation failure, which propagates. -/
def verifyCommitPhase (cfg : AuthConfig) (w : World) (token ip ua : String)
    (user : UserRow) : Except AuthErr AuthenticatedUser × World :=
  let w := markTokenUsed w token
  let p := createSession cfg w user.id
  let session := p.1
  let w := p.2
  let w := updateLastLogin w user.id
  let w := resetRateLimit w user.email
  let w := resetEnumerationCounter w ip
  match securityLog w .magicLinkVerified (some user.email) (some user.id)
      (some ip) (some ua) none with
  | (.error e, w) => (.error e, w)
  | (.ok _, w) =>
    match securityLog w .sessionCreated (some user.email) (some user.id)
        (some ip) (some ua) none with
    | (.error e, w) => (.error e, w)
    | (.ok _, w) =>
      match getUserById w user.id with
      | none => (.error .storeFailure, w)
      | some refreshed => (.ok ⟨refreshed, session⟩, w)

/-- AuthService.verify_magic_link: the validation phase followed by the
commit phase. -/
def verifyMagicLink (cfg : AuthConfig) (w : World) (token ip ua : String) :
    Except AuthErr AuthenticatedUser × World :=
  match verifyValidatePhase w token ip ua with
  | (.error e, w) => (.error e, w)
  | (.ok r, w) => verifyCommitPhase cfg w token ip ua r.2

/-- State after k sequential request_magic_link calls with identical
arguments (each call threads the state; results are observed separately). -/
def reqIter (cfg : AuthConfig) (email ip ua : String) : Nat → World → World
  | 0, w => w
  | k + 1, w => (requestMagicLink cfg (reqIter cfg email ip ua k w) email ip ua).2

/-! ### Concrete fixtures used by closed witnesses and counterexamples -/

/-- The default AuthConfig values from src/auth/config.py. -/
def cfgDefault : AuthConfig :=
  ⟨10, 2160, true, 24, 5, 15, "http://localhost:8000", "CRM"⟩

/-- A registered active user. -/
def userAda : UserRow := ⟨"u1", "ada@crm.test", true, 0, none⟩

/-- A stored magic-link token for userAda, unused, expiring at t = 600. -/
def tokenAda : MagicLinkToken := ⟨"tok1", "u1", "ada@crm.test", 0, 600, false, none⟩

/-- Base fixture: one user, one live unused token, empty TTL store,
clock at t = 100, all oracle outcomes succeeding. -/
def baseWorld : World :=
  { users := [userAda]
    tokens := [tokenAda]
    events := []
    kv := fun _ => none
    now := 100
    tokenOracle := fun n => "fresh" ++ toString n
    tokenIdx := 0
    logOracle := fun _ => true
    logIdx := 0
    emailOracle := fun _ => true
    emailIdx := 0 }

/-- Fixture whose enumeration counter for origin 9.9.9.9 already holds 1
with 100 seconds of TTL remaining (expiry instant 200, clock 100). -/
def enumWorld : World :=
  { baseWorld with
    kv := fun k =>
      if k = enumerationKey "9.9.9.9" then some ⟨.counter 1, some 200⟩ else none }

/-- Fixture identical to baseWorld except that every audit-log INSERT
fails. -/
def noLogWorld : World := { baseWorld with logOracle := fun _ => false }

/-- Fixture identical to baseWorld except that the clock has passed the
token expiry (4000 > 600). -/
def expiredWorld : World := { baseWorld with now := 4000 }

/-- Fixture identical to baseWorld except that the stored token is
already used, with used_at = 50. -/
def usedWorld : World :=
  { baseWorld with tokens := [⟨"tok1", "u1", "ada@crm.test", 0, 600, true, some 50⟩] }

/-! ### Helper lemmas: key namespaces are pairwise disjoint -/

theorem rateLimitKey_ne_enumerationKey (a b : String) :
    rateLimitKey a ≠ enumerationKey b := by
  intro h
  have h2 := congrArg String.data h
  rw [rateLimitKey, enumerationKey, String.data_append, String.data_append] at h2
  have h3 : "ratelimit:magic_link:".data = 'r' :: "atelimit:magic_link:".data := rfl
  have h4 : "enumeration:".data = 'e' :: "numeration:".data := rfl
  rw [h3, h4] at h2
  simp at h2

theorem sessionKey_ne_rateLimitKey (a b : String) :
    sessionKey a ≠ rateLimitKey b := by
  intro h
  have h2 := congrArg String.data h
  rw [sessionKey, rateLimitKey, String.data_append, String.data_append] at h2
  have h3 : "session:".data = 's' :: "ession:".data := rfl
  have h4 : "ratelimit:magic_link:".data = 'r' :: "atelimit:magic_link:".data := rfl
  rw [h3, h4] at h2
  simp at h2

theorem sessionKey_ne_enumerationKey (a b : String) :
    sessionKey a ≠ enumerationKey b := by
  intro h
  have h2 := congrArg String.data h
  rw [sessionKey, enumerationKey, String.data_append, String.data_append] at h2
  have h3 : "session:".data = 's' :: "ession:".data := rfl
  have h4 : "enumeration:".data = 'e' :: "numeration:".data := rfl
  rw [h3, h4] at h2
  simp at h2

/-! ### Helper lemmas: SELECT after UPDATE on the row lists -/

theorem find?_map_pred_invariant {α : Type} (p : α → Bool) (f : α → α)
    (hf : ∀ a, p (f a) = p a) (l : List α) :
    List.find? p (l.map f) = (List.find? p l).map f := by
  induction l with
  | nil => rfl
  | cons a l ih =>
    simp only [List.map_cons, List.find?_cons, hf]
    cases h : p a
    · simpa [h] using ih
    · simp [h]

theorem find?_users_update (us : List UserRow) (uid : String) (n : Nat) :
    List.find? (fun u => u.id == uid)
      (us.map (fun u => if u.id == uid then { u with lastLoginAt := some n } else u))
    = (List.find? (fun u => u.id == uid) us).map
        (fun u => if u.id == uid then { u with lastLoginAt := some n } else u) := by
  apply find?_map_pred_invariant
  intro a
  by_cases h : a.id = uid <;> simp [h]

theorem find?_tokens_update (ts : List MagicLinkToken) (tok : String) (n : Nat) :
    List.find? (fun t => t.token == tok)
      (ts.map (fun t => if t.token == tok then { t with used := true, usedAt := some n } else t))
    = (List.find? (fun t => t.token == tok) ts).map
        (fun t => if t.token == tok then { t with used := true, usedAt := some n } else t) := by
  apply find?_map_pred_invariant
  intro a
  by_cases h : a.token = tok <;> simp [h]

/-! ### Phase characterization lemmas for verify_magic_link -/

/-- Under a valid, unused, unexpired token and an existing active user,
the validation phase succeeds and performs no state change at all. -/
theorem verifyValidatePhase_ok (w : World) (tok ip ua : String)
    (mt : MagicLinkToken) (u : UserRow)
    (hmt : getMagicLinkToken w tok = some mt)
    (hused : mt.used = false)
    (hexp : ¬ w.now > mt.expiresAt)
    (hpu : getUserById w mt.userId = some u)
    (hact : u.isActive = true) :
    verifyValidatePhase w tok ip ua = (.ok (mt, u), w) := by
  unfold verifyValidatePhase
  rw [hmt]
  simp [hused, hexp, hpu, hact]

/-- Under an existing user and successful audit inserts, the commit phase
succeeds, returning the refreshed user and the new session; it marks the
token used and deletes both the per-email rate-limit key and the origin
enumeration key. -/
theorem verifyCommitPhase_spec (cfg : AuthConfig) (w : World) (tok ip ua : String)
    (user v : UserRow)
    (hpu : getUserById w user.id = some v)
    (hlog : ∀ n, w.logOracle n = true) :
    (verifyCommitPhase cfg w tok ip ua user).1
      = .ok ⟨{ v with lastLoginAt := some w.now },
             ⟨w.tokenOracle w.tokenIdx, user.id, w.now,
               w.now + sessionLifetimeSeconds cfg, w.now⟩⟩
    ∧ (verifyCommitPhase cfg w tok ip ua user).2.tokens
      = w.tokens.map
          (fun t => if t.token == tok then { t with used := true, usedAt := some w.now } else t)
    ∧ (verifyCommitPhase cfg w tok ip ua user).2.kv (rateLimitKey user.email) = none
    ∧ (verifyCommitPhase cfg w tok ip ua user).2.kv (enumerationKey ip) = none
    ∧ (verifyCommitPhase cfg w tok ip ua user).2.logOracle = w.logOracle
    ∧ (verifyCommitPhase cfg w tok ip ua user).2.now = w.now
    ∧ (verifyCommitPhase cfg w tok ip ua user).2.users
      = w.users.map
          (fun x => if x.id == user.id then { x with lastLoginAt := some w.now } else x) := by
  have hpu' : List.find? (fun u => u.id == user.id) w.users = some v := hpu
  have hb : (v.id == user.id) = true :=
    @List.find?_some UserRow (fun u => u.id == user.id) v w.users hpu'
  unfold verifyCommitPhase
  simp only [markTokenUsed, createSession, vsetJson, kvSet, kvDel,
    updateLastLogin, resetRateLimit, resetEnumerationCounter, securityLog, getUserById,
    hlog, if_true, find?_users_update, hpu', Option.map_some', hb]
  simp

/-! ### Claim C1 -/

/-- Claim C1: one-time-use law.  A valid, unexpired, unused magic-link
token with an existing active user verifies successfully; the verified
world holds the token with used = true (the flag flips false to true),
and any subsequent verification with the same token value fails with
InvalidToken because the token is already used. -/
theorem claim_C1 (cfg : AuthConfig) (w : World) (tok ip ua ip2 ua2 : String)
    (mt : MagicLinkToken) (u : UserRow)
    (hmt : getMagicLinkToken w tok = some mt)
    (hused : mt.used = false)
    (hexp : ¬ w.now > mt.expiresAt)
    (hpu : getUserById w mt.userId = some u)
    (hact : u.isActive = true)
    (hlog : ∀ n, w.logOracle n = true) :
    (∃ au, (verifyMagicLink cfg w tok ip ua).1 = .ok au)
    ∧ getMagicLinkToken (verifyMagicLink cfg w tok ip ua).2 tok
        = some { mt with used := true, usedAt := some w.now }
    ∧ (verifyMagicLink cfg (verifyMagicLink cfg w tok ip ua).2 tok ip2 ua2).1
        = .error (.invalidToken "Token has already been used") := by
  have hval := verifyValidatePhase_ok w tok ip ua mt u hmt hused hexp hpu hact
  have hpu' : List.find? (fun x => x.id == mt.userId) w.users = some u := hpu
  have hb : (u.id == mt.userId) = true :=
    @List.find?_some UserRow (fun x => x.id == mt.userId) u w.users hpu'
  have hid : u.id = mt.userId := by simpa using hb
  have hpu2 : getUserById w u.id = some u := by rw [hid]; exact hpu
  have hcommit := verifyCommitPhase_spec cfg w tok ip ua u u hpu2 hlog
  have hmain : verifyMagicLink cfg w tok ip ua = verifyCommitPhase cfg w tok ip ua u := by
    unfold verifyMagicLink
    rw [hval]
  have hmtl : List.find? (fun t => t.token == tok) w.tokens = some mt := hmt
  have hbt : (mt.token == tok) = true :=
    @List.find?_some MagicLinkToken (fun t => t.token == tok) mt w.tokens hmtl
  have h2 : getMagicLinkToken (verifyCommitPhase cfg w tok ip ua u).2 tok
      = some { mt with used := true, usedAt := some w.now } := by
    unfold getMagicLinkToken
    rw [hcommit.2.1, find?_tokens_update, hmtl]
    have hteq : mt.token = tok := by simpa using hbt
    simp [hteq]
  have hOr : (verifyCommitPhase cfg w tok ip ua u).2.logOracle = w.logOracle :=
    hcommit.2.2.2.2.1
  refine ⟨⟨_, by rw [hmain, hcommit.1]⟩, by rw [hmain]; exact h2, ?_⟩
  rw [hmain]
  unfold verifyMagicLink verifyValidatePhase
  rw [h2]
  simp only [securityLog, hOr, hlog, if_true]

/-- Witness for claim C1 at the concrete base fixture. -/
theorem claim_C1_witness :
    (∃ au, (verifyMagicLink cfgDefault baseWorld "tok1" "1.2.3.4" "ua").1 = .ok au)
    ∧ getMagicLinkToken (verifyMagicLink cfgDefault baseWorld "tok1" "1.2.3.4" "ua").2 "tok1"
        = some ⟨"tok1", "u1", "ada@crm.test", 0, 600, true, some 100⟩
    ∧ (verifyMagicLink cfgDefault
          (verifyMagicLink cfgDefault baseWorld "tok1" "1.2.3.4" "ua").2 "tok1" "5.6.7.8" "ua2").1
        = .error (.invalidToken "Token has already been used") :=
  claim_C1 cfgDefault baseWorld "tok1" "1.2.3.4" "ua" "5.6.7.8" "ua2" tokenAda userAda
    rfl rfl (by decide) rfl rfl (fun _ => rfl)

/-! ### Claim C2 -/

/-- Claim C2: an expired token always fails verification with
InvalidToken, whatever its used flag, and on this failure the TTL store
(hence no session), the token table (hence no used flag change) and the
user table (hence last_login_at) are all unchanged. -/
theorem claim_C2 (cfg : AuthConfig) (w : World) (tok ip ua : String)
    (mt : MagicLinkToken)
    (hmt : getMagicLinkToken w tok = some mt)
    (hexp : w.now > mt.expiresAt)
    (hlog : w.logOracle w.logIdx = true) :
    (∃ msg, (verifyMagicLink cfg w tok ip ua).1 = .error (.invalidToken msg))
    ∧ (verifyMagicLink cfg w tok ip ua).2.kv = w.kv
    ∧ (verifyMagicLink cfg w tok ip ua).2.tokens = w.tokens
    ∧ (verifyMagicLink cfg w tok ip ua).2.users = w.users := by
  unfold verifyMagicLink verifyValidatePhase
  simp only [hmt]
  cases hu : mt.used
  · rw [if_neg (by simp), if_pos hexp]
    simp only [securityLog, hlog]
    exact ⟨⟨"Token has expired", rfl⟩, rfl, rfl, rfl⟩
  · simp only [securityLog, hlog]
    exact ⟨⟨"Token has already been used", rfl⟩, rfl, rfl, rfl⟩

/-- Witness for claim C2 at the expired-token fixture. -/
theorem claim_C2_witness :
    (∃ msg, (verifyMagicLink cfgDefault expiredWorld "tok1" "1.2.3.4" "ua").1
        = .error (.invalidToken msg))
    ∧ (verifyMagicLink cfgDefault expiredWorld "tok1" "1.2.3.4" "ua").2.kv = expiredWorld.kv
    ∧ (verifyMagicLink cfgDefault expiredWorld "tok1" "1.2.3.4" "ua").2.tokens = expiredWorld.tokens
    ∧ (verifyMagicLink cfgDefault expiredWorld "tok1" "1.2.3.4" "ua").2.users = expiredWorld.users :=
  claim_C2 cfgDefault expiredWorld "tok1" "1.2.3.4" "ua" tokenAda rfl (by decide) rfl


/-! ### Claim C9 -/

/-- Claim C9: every successful verification deletes both the per-email
rate-limit key for the verified user and the enumeration key for the
requesting origin; immediately afterwards the remaining-attempts query
for that email returns the full configured threshold and the origin
passes the enumeration check. -/
theorem claim_C9 (cfg : AuthConfig) (w : World) (tok ip ua : String)
    (mt : MagicLinkToken) (u : UserRow)
    (hmt : getMagicLinkToken w tok = some mt)
    (hused : mt.used = false)
    (hexp : ¬ w.now > mt.expiresAt)
    (hpu : getUserById w mt.userId = some u)
    (hact : u.isActive = true)
    (hlog : ∀ n, w.logOracle n = true) :
    (verifyMagicLink cfg w tok ip ua).2.kv (rateLimitKey u.email) = none
    ∧ (verifyMagicLink cfg w tok ip ua).2.kv (enumerationKey ip) = none
    ∧ getRemainingAttempts cfg (verifyMagicLink cfg w tok ip ua).2 u.email
        = .ok cfg.rateLimitAttempts
    ∧ checkEnumerationLimit (verifyMagicLink cfg w tok ip ua).2 ip = .ok () := by
  have hval := verifyValidatePhase_ok w tok ip ua mt u hmt hused hexp hpu hact
  have hpu' : List.find? (fun x => x.id == mt.userId) w.users = some u := hpu
  have hb : (u.id == mt.userId) = true :=
    @List.find?_some UserRow (fun x => x.id == mt.userId) u w.users hpu'
  have hid : u.id = mt.userId := by simpa using hb
  have hpu2 : getUserById w u.id = some u := by rw [hid]; exact hpu
  have hcommit := verifyCommitPhase_spec cfg w tok ip ua u u hpu2 hlog
  have hmain : verifyMagicLink cfg w tok ip ua = verifyCommitPhase cfg w tok ip ua u := by
    unfold verifyMagicLink
    rw [hval]
  rw [hmain]
  refine ⟨hcommit.2.2.1, hcommit.2.2.2.1, ?_, ?_⟩
  · unfold getRemainingAttempts vget vlookup
    rw [hcommit.2.2.1]
    rfl
  · unfold checkEnumerationLimit vget vlookup
    rw [hcommit.2.2.2.1]
    rfl

/-- Helper: validating a live stored session always succeeds and returns
the session refreshed to expires_at = now + lifetime and
last_activity_at = now, rewriting the stored record with the same
refreshed expiry. -/
theorem validateSession_live (cfg : AuthConfig) (w : World) (tok : String) (d : SessData)
    (hd : vget w (sessionKey tok) = some (.json d))
    (hexp : ¬ w.now > d.expiresAt) :
    (validateSession cfg w tok).1
      = .ok ⟨tok, d.userId, d.createdAt, w.now + sessionLifetimeSeconds cfg, w.now⟩
    ∧ (validateSession cfg w tok).2.kv (sessionKey tok)
      = some ⟨.json ⟨d.userId, d.createdAt, w.now + sessionLifetimeSeconds cfg, w.now⟩,
              some (w.now + sessionLifetimeSeconds cfg)⟩
    ∧ (validateSession cfg w tok).2.now = w.now := by
  unfold validateSession
  simp only [hd]
  rw [if_neg hexp]
  unfold extendSession vsetJson kvSet
  simp

/-! ### Claim C10 -/

/-- Claim C10: validating a live stored session returns a refreshed
session with the same token, expires_at = now + configured lifetime and
last_activity_at = now; and on a freshly created session two successive
validations (the second at a strictly later clock still inside the
lifetime) yield a strictly later second expires_at. -/
theorem claim_C10 (cfg : AuthConfig) (hcfg : cfg.valid) :
    (∀ w tok d, vget w (sessionKey tok) = some (.json d) → ¬ w.now > d.expiresAt →
      (validateSession cfg w tok).1
        = .ok ⟨tok, d.userId, d.createdAt, w.now + sessionLifetimeSeconds cfg, w.now⟩)
    ∧ (∀ w uid n2, w.now < n2 → n2 < w.now + sessionLifetimeSeconds cfg →
      ∃ s1 s2,
        (validateSession cfg (createSession cfg w uid).2
            ((createSession cfg w uid).1.token)).1 = .ok s1
        ∧ (validateSession cfg
            { (validateSession cfg (createSession cfg w uid).2
                ((createSession cfg w uid).1.token)).2 with now := n2 }
            ((createSession cfg w uid).1.token)).1 = .ok s2
        ∧ s1.token = (createSession cfg w uid).1.token
        ∧ s2.token = (createSession cfg w uid).1.token
        ∧ s1.expiresAt < s2.expiresAt) := by
  have hL : 0 < sessionLifetimeSeconds cfg := by
    have h1 := hcfg.2.2.1
    unfold sessionLifetimeSeconds
    omega
  constructor
  · intro w tok d hd hexp
    exact (validateSession_live cfg w tok d hd hexp).1
  · intro w uid n2 h1 h2
    have hd1 : vget (createSession cfg w uid).2 (sessionKey ((createSession cfg w uid).1.token))
        = some (.json ⟨uid, w.now, w.now + sessionLifetimeSeconds cfg, w.now⟩) := by
      unfold vget vlookup createSession vsetJson kvSet
      simp only [eq_self_iff_true, if_true]
      rw [if_pos (Nat.lt_add_of_pos_right hL)]
      rfl
    have hx1 : ¬ (createSession cfg w uid).2.now
        > (⟨uid, w.now, w.now + sessionLifetimeSeconds cfg, w.now⟩ : SessData).expiresAt := by
      show ¬ w.now > w.now + sessionLifetimeSeconds cfg
      omega
    have hv1 := validateSession_live cfg (createSession cfg w uid).2
      ((createSession cfg w uid).1.token)
      ⟨uid, w.now, w.now + sessionLifetimeSeconds cfg, w.now⟩ hd1 hx1
    have hd2 : vget
        { (validateSession cfg (createSession cfg w uid).2
            ((createSession cfg w uid).1.token)).2 with now := n2 }
        (sessionKey ((createSession cfg w uid).1.token))
        = some (.json ⟨uid, w.now, w.now + sessionLifetimeSeconds cfg, w.now⟩) := by
      unfold vget vlookup
      have hkv := hv1.2.1
      simp only [hkv]
      rw [if_pos (show n2 < (createSession cfg w uid).2.now + sessionLifetimeSeconds cfg from h2)]
      rfl
    have hx2 : ¬ ({ (validateSession cfg (createSession cfg w uid).2
            ((createSession cfg w uid).1.token)).2 with now := n2 } : World).now
        > (⟨uid, w.now, w.now + sessionLifetimeSeconds cfg, w.now⟩ : SessData).expiresAt := by
      show ¬ n2 > w.now + sessionLifetimeSeconds cfg
      omega
    have hv2 := validateSession_live cfg
      { (validateSession cfg (createSession cfg w uid).2
          ((createSession cfg w uid).1.token)).2 with now := n2 }
      ((createSession cfg w uid).1.token)
      ⟨uid, w.now, w.now + sessionLifetimeSeconds cfg, w.now⟩ hd2 hx2
    refine ⟨_, _, hv1.1, hv2.1, rfl, rfl, ?_⟩
    show (createSession cfg w uid).2.now + sessionLifetimeSeconds cfg
        < n2 + sessionLifetimeSeconds cfg
    show w.now + sessionLifetimeSeconds cfg < n2 + sessionLifetimeSeconds cfg
    omega

/-- Witness for claim C9 at the concrete base fixture. -/
theorem claim_C9_witness :
    (verifyMagicLink cfgDefault baseWorld "tok1" "1.2.3.4" "ua").2.kv
        (rateLimitKey "ada@crm.test") = none
    ∧ (verifyMagicLink cfgDefault baseWorld "tok1" "1.2.3.4" "ua").2.kv
        (enumerationKey "1.2.3.4") = none
    ∧ getRemainingAttempts cfgDefault
        (verifyMagicLink cfgDefault baseWorld "tok1" "1.2.3.4" "ua").2 "ada@crm.test"
        = .ok 5
    ∧ checkEnumerationLimit
        (verifyMagicLink cfgDefault baseWorld "tok1" "1.2.3.4" "ua").2 "1.2.3.4"
        = .ok () :=
  claim_C9 cfgDefault baseWorld "tok1" "1.2.3.4" "ua" tokenAda userAda
    rfl rfl (by decide) rfl rfl (fun _ => rfl)

/-- Witness for claim C10: concrete two-validation run on a session
created at t = 100 and revalidated at t = 101. -/
theorem claim_C10_witness :
    ∃ s1 s2,
      (validateSession cfgDefault (createSession cfgDefault baseWorld "u1").2
          ((createSession cfgDefault baseWorld "u1").1.token)).1 = .ok s1
      ∧ (validateSession cfgDefault
          { (validateSession cfgDefault (createSession cfgDefault baseWorld "u1").2
              ((createSession cfgDefault baseWorld "u1").1.token)).2 with now := 101 }
          ((createSession cfgDefault baseWorld "u1").1.token)).1 = .ok s2
      ∧ s1.token = (createSession cfgDefault baseWorld "u1").1.token
      ∧ s2.token = (createSession cfgDefault baseWorld "u1").1.token
      ∧ s1.expiresAt < s2.expiresAt :=
  (claim_C10 cfgDefault (by decide)).2 baseWorld "u1" 101 (by decide) (by decide)

/-! ### Claim C3 -/

/-- Claim C3 (amended): the mark-token-used write is an unconditional
UPDATE — applied to a row whose used flag is already true it still
rewrites the row (setting used_at = now), which no compare-and-swap on
used = false would do — and the used check of verification is a separate
earlier SELECT: the validation phase performs reads only and returns the
state unchanged.  Consequently two interleaved verifications racing on
the same token can BOTH succeed: when the second request runs its
validation phase against the shared pre-state, its commit phase still
succeeds after the first full verification has committed. -/
theorem claim_C3_amended (cfg : AuthConfig) (w : World) (tok ipA uaA ipB uaB : String)
    (mt : MagicLinkToken) (u : UserRow)
    (hmt : getMagicLinkToken w tok = some mt)
    (hused : mt.used = false)
    (hexp : ¬ w.now > mt.expiresAt)
    (hpu : getUserById w mt.userId = some u)
    (hact : u.isActive = true)
    (hlog : ∀ n, w.logOracle n = true) :
    (∀ w2 mt2, getMagicLinkToken w2 tok = some mt2 → mt2.used = true →
      getMagicLinkToken (markTokenUsed w2 tok) tok
        = some { mt2 with used := true, usedAt := some w2.now })
    ∧ (∃ a, (verifyMagicLink cfg w tok ipA uaA).1 = .ok a)
    ∧ verifyValidatePhase w tok ipB uaB = (.ok (mt, u), w)
    ∧ (∃ b, (verifyCommitPhase cfg (verifyMagicLink cfg w tok ipA uaA).2
          tok ipB uaB u).1 = .ok b) := by
  have hwrite : ∀ w2 mt2, getMagicLinkToken w2 tok = some mt2 → mt2.used = true →
      getMagicLinkToken (markTokenUsed w2 tok) tok
        = some { mt2 with used := true, usedAt := some w2.now } := by
    intro w2 mt2 hm2 _
    have hmtl2 : List.find? (fun t => t.token == tok) w2.tokens = some mt2 := hm2
    have hbt2 : (mt2.token == tok) = true :=
      @List.find?_some MagicLinkToken (fun t => t.token == tok) mt2 w2.tokens hmtl2
    have hteq2 : mt2.token = tok := by simpa using hbt2
    unfold getMagicLinkToken markTokenUsed
    simp only [find?_tokens_update, hmtl2]
    simp [hteq2]
  have hvalA := verifyValidatePhase_ok w tok ipA uaA mt u hmt hused hexp hpu hact
  have hvalB := verifyValidatePhase_ok w tok ipB uaB mt u hmt hused hexp hpu hact
  have hpu' : List.find? (fun x => x.id == mt.userId) w.users = some u := hpu
  have hb : (u.id == mt.userId) = true :=
    @List.find?_some UserRow (fun x => x.id == mt.userId) u w.users hpu'
  have hid : u.id = mt.userId := by simpa using hb
  have hpu2 : getUserById w u.id = some u := by rw [hid]; exact hpu
  have hcommit := verifyCommitPhase_spec cfg w tok ipA uaA u u hpu2 hlog
  have hmain : verifyMagicLink cfg w tok ipA uaA = verifyCommitPhase cfg w tok ipA uaA u := by
    unfold verifyMagicLink
    rw [hvalA]
  have hu1 : getUserById (verifyCommitPhase cfg w tok ipA uaA u).2 u.id
      = some { u with lastLoginAt := some w.now } := by
    unfold getUserById
    rw [hcommit.2.2.2.2.2.2, find?_users_update]
    have hfun : (fun (x : UserRow) => x.id == u.id) = (fun x => x.id == mt.userId) := by
      funext x
      rw [hid]
    have hpu3 : List.find? (fun x => x.id == u.id) w.users = some u := by
      rw [hfun]
      exact hpu'
    rw [hpu3]
    simp
  have hlog1 : ∀ n, (verifyCommitPhase cfg w tok ipA uaA u).2.logOracle n = true := by
    intro n
    rw [hcommit.2.2.2.2.1]
    exact hlog n
  have hu2 : getUserById (verifyMagicLink cfg w tok ipA uaA).2 u.id
      = some { u with lastLoginAt := some w.now } := by
    rw [hmain]
    exact hu1
  have hlog2 : ∀ n, (verifyMagicLink cfg w tok ipA uaA).2.logOracle n = true := by
    rw [hmain]
    exact hlog1
  have hcommit2 := verifyCommitPhase_spec cfg (verifyMagicLink cfg w tok ipA uaA).2
    tok ipB uaB u ({ u with lastLoginAt := some w.now } : UserRow) hu2 hlog2
  exact ⟨hwrite, ⟨_, by rw [hmain, hcommit.1]⟩, hvalB, ⟨_, by rw [hcommit2.1]⟩⟩

/-- Counterexample for claim C3 as stated, at concrete inputs.  The
mark-used write is not a compare-and-swap on the used flag: applied to a
token row that is ALREADY used (used_at = 50) it still rewrites the row,
moving used_at to 100, where a conditional update on used = false would
have matched no row and left it unchanged.  The used check of a pending
verification is a separate prior read that writes nothing.  In the
resulting interleaving — request B passes validation against the shared
pre-state, request A verifies fully, then the commit of B runs — BOTH
attempts on the same token value succeed, contradicting that at most one
of two racing verification attempts succeeds while the other fails with
InvalidToken. -/
theorem claim_C3_counterexample :
    getMagicLinkToken usedWorld "tok1"
      = some ⟨"tok1", "u1", "ada@crm.test", 0, 600, true, some 50⟩
    ∧ getMagicLinkToken (markTokenUsed usedWorld "tok1") "tok1"
      = some ⟨"tok1", "u1", "ada@crm.test", 0, 600, true, some 100⟩
    ∧ verifyValidatePhase baseWorld "tok1" "2.2.2.2" "uaB"
        = (.ok (tokenAda, userAda), baseWorld)
    ∧ (∃ a, (verifyMagicLink cfgDefault baseWorld "tok1" "1.1.1.1" "uaA").1 = .ok a)
    ∧ (∃ b, (verifyCommitPhase cfgDefault
          (verifyMagicLink cfgDefault baseWorld "tok1" "1.1.1.1" "uaA").2
          "tok1" "2.2.2.2" "uaB" userAda).1 = .ok b) :=
  ⟨rfl, rfl, rfl, ⟨_, rfl⟩, ⟨_, rfl⟩⟩

/-- Witness for the amended claim C3 at the concrete base fixture, with
the unconditional-write part instantiated at the already-used row. -/
theorem claim_C3_witness :
    getMagicLinkToken (markTokenUsed usedWorld "tok1") "tok1"
      = some ⟨"tok1", "u1", "ada@crm.test", 0, 600, true, some 100⟩
    ∧ (∃ a, (verifyMagicLink cfgDefault baseWorld "tok1" "7.7.7.7" "uaA").1 = .ok a)
    ∧ verifyValidatePhase baseWorld "tok1" "8.8.8.8" "uaB"
        = (.ok (tokenAda, userAda), baseWorld)
    ∧ (∃ b, (verifyCommitPhase cfgDefault
          (verifyMagicLink cfgDefault baseWorld "tok1" "7.7.7.7" "uaA").2
          "tok1" "8.8.8.8" "uaB" userAda).1 = .ok b) := by
  have h := claim_C3_amended cfgDefault baseWorld "tok1" "7.7.7.7" "uaA" "8.8.8.8" "uaB"
    tokenAda userAda rfl rfl (by decide) rfl rfl (fun _ => rfl)
  exact ⟨h.1 usedWorld ⟨"tok1", "u1", "ada@crm.test", 0, 600, true, some 50⟩ rfl rfl,
    h.2.1, h.2.2.1, h.2.2.2⟩

/-! ### Claim C4 -/

/-- Helper: a successful live lookup means the raw store holds the entry
and the entry is live (no expiry, or expiry strictly in the future). -/
theorem vlookup_cases (w : World) (k : String) (e : VEntry)
    (h : vlookup w k = some e) :
    w.kv k = some e ∧ (e.expireAt = none ∨ ∃ t0, e.expireAt = some t0 ∧ w.now < t0) := by
  unfold vlookup at h
  cases hk : w.kv k with
  | none => rw [hk] at h; exact absurd h (by simp)
  | some e0 =>
    simp only [hk] at h
    cases he : e0.expireAt with
    | none =>
      simp only [he] at h
      injection h with h1
      subst h1
      exact ⟨rfl, .inl he⟩
    | some t0 =>
      simp only [he] at h
      by_cases hlt : w.now < t0
      · rw [if_pos hlt] at h
        injection h with h1
        subst h1
        exact ⟨rfl, .inr ⟨t0, he, hlt⟩⟩
      · rw [if_neg hlt] at h
        exact absurd h (by simp)

/-- Claim C4 (amended): the per-email rate limiter resets the TTL of its
key to the full window duration on every attempt, whatever the prior
counter value or TTL state; the per-origin enumeration counter instead
sets its TTL only on the first increment — a subsequent increment (prior
count at least 1) leaves the stored expiry unchanged. -/
theorem claim_C4_amended (cfg : AuthConfig) :
    (∀ w email,
      (vlookup w (rateLimitKey email) = none
        ∨ ∃ c t, vlookup w (rateLimitKey email) = some ⟨.counter c, t⟩) →
      ∃ n, ((checkRateLimit cfg w email).2).kv (rateLimitKey email)
        = some ⟨.counter n, some (w.now + windowSeconds cfg)⟩)
    ∧ (∀ w ip c t, vlookup w (enumerationKey ip) = some ⟨.counter c, t⟩ → 1 ≤ c →
      ((incrementEnumerationCounter w ip).2).kv (enumerationKey ip)
        = some ⟨.counter (c + 1), t⟩) := by
  constructor
  · intro w email h
    rcases h with hnone | ⟨c, t, hsome⟩
    · refine ⟨1, ?_⟩
      unfold checkRateLimit vincr
      simp only [hnone]
      unfold vexpire vlookup kvSet
      simp only [if_pos rfl]
      by_cases hgt : 1 > cfg.rateLimitAttempts <;> simp [hgt]
    · refine ⟨c + 1, ?_⟩
      have hcase := vlookup_cases w (rateLimitKey email) _ hsome
      unfold checkRateLimit vincr
      simp only [hsome]
      unfold vexpire vlookup kvSet
      simp only [if_pos rfl]
      rcases hcase.2 with hnone2 | ⟨t0, ht0, hlt⟩
      · simp only at hnone2
        subst hnone2
        simp only [if_true]
        by_cases hgt : c + 1 > cfg.rateLimitAttempts <;> simp [hgt]
      · simp only at ht0
        subst ht0
        simp only [if_true]
        rw [if_pos hlt]
        by_cases hgt : c + 1 > cfg.rateLimitAttempts <;> simp [hgt]
  · intro w ip c t hsome hc
    have hne : (c + 1 == 1) = false := by
      rw [beq_eq_false_iff_ne]
      omega
    unfold incrementEnumerationCounter vincr
    simp only [hsome]
    simp only [hne]
    unfold kvSet
    simp

/-- Counterexample for claim C4 as stated: at the fixture whose
enumeration counter is 1 with expiry instant 200 (100 seconds of TTL left
at clock 100), a further attempt increments the counter to 2 but leaves
the expiry instant at 200, so the remaining TTL is 100 and not the full
window of 900 seconds. -/
theorem claim_C4_counterexample :
    (incrementEnumerationCounter enumWorld "9.9.9.9").2.kv (enumerationKey "9.9.9.9")
      = some ⟨.counter 2, some 200⟩
    ∧ vttl (incrementEnumerationCounter enumWorld "9.9.9.9").2 (enumerationKey "9.9.9.9") = 100
    ∧ enumerationWindowSeconds = 900
    ∧ (100 : Int) ≠ (900 : Int) :=
  ⟨rfl, rfl, rfl, by decide⟩

/-- Witness for the amended claim C4 at the concrete fixtures. -/
theorem claim_C4_witness :
    (∃ n, ((checkRateLimit cfgDefault baseWorld "ada@crm.test").2).kv
        (rateLimitKey "ada@crm.test")
      = some ⟨.counter n, some (100 + windowSeconds cfgDefault)⟩)
    ∧ ((incrementEnumerationCounter enumWorld "9.9.9.9").2).kv (enumerationKey "9.9.9.9")
      = some ⟨.counter (1 + 1), some 200⟩ :=
  ⟨(claim_C4_amended cfgDefault).1 baseWorld "ada@crm.test" (Or.inl rfl),
   (claim_C4_amended cfgDefault).2 enumWorld "9.9.9.9" 1 (some 200) rfl (by decide)⟩

/-! ### Claim C5 -/

/-- Counterexample for claim C5 as stated: two runs differing only in the
audit-log insert outcome give different results — with the insert failing
the unknown-email request propagates the store failure instead of
returning the needs-signup result, so an audit-log write failure does
abort the primary operation. -/
theorem claim_C5_counterexample :
    (requestMagicLink cfgDefault noLogWorld "zoe@nowhere.test" "3.3.3.3" "ua").1
      = .error .storeFailure
    ∧ (requestMagicLink cfgDefault baseWorld "zoe@nowhere.test" "3.3.3.3" "ua").1
      = .ok ⟨false, true⟩
    ∧ noLogWorld = { baseWorld with logOracle := fun _ => false } :=
  ⟨by rfl, by rfl, rfl⟩

/-- Claim C5 (amended): SecurityLogger.log has no exception handling, so
a failing audit-log INSERT propagates out of the primary operation: a
verification whose first commit-phase audit insert fails returns the
store failure to the caller even though its primary effects — the token
marked used and the session record stored — have already been committed. -/
theorem claim_C5_amended (cfg : AuthConfig) (w : World) (tok ip ua : String)
    (mt : MagicLinkToken) (u : UserRow)
    (hmt : getMagicLinkToken w tok = some mt)
    (hused : mt.used = false)
    (hexp : ¬ w.now > mt.expiresAt)
    (hpu : getUserById w mt.userId = some u)
    (hact : u.isActive = true)
    (hlog : w.logOracle w.logIdx = false) :
    (verifyMagicLink cfg w tok ip ua).1 = .error .storeFailure
    ∧ getMagicLinkToken (verifyMagicLink cfg w tok ip ua).2 tok
        = some { mt with used := true, usedAt := some w.now }
    ∧ (verifyMagicLink cfg w tok ip ua).2.kv (sessionKey (w.tokenOracle w.tokenIdx))
        = some ⟨.json ⟨u.id, w.now, w.now + sessionLifetimeSeconds cfg, w.now⟩,
                some (w.now + sessionLifetimeSeconds cfg)⟩ := by
  have hval := verifyValidatePhase_ok w tok ip ua mt u hmt hused hexp hpu hact
  have hmain : verifyMagicLink cfg w tok ip ua = verifyCommitPhase cfg w tok ip ua u := by
    unfold verifyMagicLink
    rw [hval]
  have hrun : (verifyCommitPhase cfg w tok ip ua u).1 = .error .storeFailure
      ∧ (verifyCommitPhase cfg w tok ip ua u).2.tokens
        = w.tokens.map
            (fun t => if t.token == tok then { t with used := true, usedAt := some w.now } else t)
      ∧ (verifyCommitPhase cfg w tok ip ua u).2.kv (sessionKey (w.tokenOracle w.tokenIdx))
        = some ⟨.json ⟨u.id, w.now, w.now + sessionLifetimeSeconds cfg, w.now⟩,
                some (w.now + sessionLifetimeSeconds cfg)⟩ := by
    unfold verifyCommitPhase
    simp only [markTokenUsed, createSession, vsetJson, kvSet, kvDel, updateLastLogin,
      resetRateLimit, resetEnumerationCounter, securityLog, hlog]
    simp [sessionKey_ne_rateLimitKey, sessionKey_ne_enumerationKey]
  have hmtl : List.find? (fun t => t.token == tok) w.tokens = some mt := hmt
  have hbt : (mt.token == tok) = true :=
    @List.find?_some MagicLinkToken (fun t => t.token == tok) mt w.tokens hmtl
  have hteq : mt.token = tok := by simpa using hbt
  refine ⟨by rw [hmain]; exact hrun.1, ?_, by rw [hmain]; exact hrun.2.2⟩
  rw [hmain]
  unfold getMagicLinkToken
  rw [hrun.2.1, find?_tokens_update, hmtl]
  simp [hteq]

/-- Witness for the amended claim C5 at the failing-log fixture. -/
theorem claim_C5_witness :
    (verifyMagicLink cfgDefault noLogWorld "tok1" "1.2.3.4" "ua").1 = .error .storeFailure
    ∧ getMagicLinkToken (verifyMagicLink cfgDefault noLogWorld "tok1" "1.2.3.4" "ua").2 "tok1"
        = some ⟨"tok1", "u1", "ada@crm.test", 0, 600, true, some 100⟩
    ∧ (verifyMagicLink cfgDefault noLogWorld "tok1" "1.2.3.4" "ua").2.kv (sessionKey "fresh0")
        = some ⟨.json ⟨"u1", 100, 100 + sessionLifetimeSeconds cfgDefault, 100⟩,
                some (100 + sessionLifetimeSeconds cfgDefault)⟩ :=
  claim_C5_amended cfgDefault noLogWorld "tok1" "1.2.3.4" "ua" tokenAda userAda
    rfl rfl (by decide) rfl rfl rfl

/-! ### Claim C8 -/

/-- Helper: a successful INCR changes only the TTL store. -/
theorem vincr_frame (w : World) (k : String) (c : Nat) (w1 : World)
    (h : vincr w k = .ok (c, w1)) :
    w1.emailIdx = w.emailIdx ∧ w1.tokens = w.tokens
    ∧ w1.logOracle = w.logOracle ∧ w1.logIdx = w.logIdx := by
  unfold vincr at h
  rcases hv : vlookup w k with _ | ⟨v, t⟩
  · rw [hv] at h
    injection h with h1
    injection h1 with h2 h3
    subst h3
    simp [kvSet]
  · rw [hv] at h
    cases v with
    | counter n =>
      simp only at h
      injection h with h1
      injection h1 with h2 h3
      subst h3
      simp [kvSet]
    | json s =>
      simp only at h
      exact absurd h (by simp)

/-- Helper: EXPIRE changes only the TTL store. -/
theorem vexpire_frame (w : World) (k : String) (s : Nat) :
    (vexpire w k s).2.emailIdx = w.emailIdx ∧ (vexpire w k s).2.tokens = w.tokens
    ∧ (vexpire w k s).2.logOracle = w.logOracle ∧ (vexpire w k s).2.logIdx = w.logIdx := by
  unfold vexpire
  rcases hv : vlookup w k with _ | e
  · simp [hv]
  · simp [hv, kvSet]

/-- Helper: the enumeration-counter increment changes only the TTL
store. -/
theorem incEnum_frame (w : World) (ip : String) :
    (incrementEnumerationCounter w ip).2.emailIdx = w.emailIdx
    ∧ (incrementEnumerationCounter w ip).2.tokens = w.tokens
    ∧ (incrementEnumerationCounter w ip).2.logOracle = w.logOracle
    ∧ (incrementEnumerationCounter w ip).2.logIdx = w.logIdx := by
  unfold incrementEnumerationCounter
  rcases hq : vincr w (enumerationKey ip) with e | ⟨c, w1⟩
  · simp [hq]
  · have hf := vincr_frame w (enumerationKey ip) c w1 hq
    have hg := vexpire_frame w1 (enumerationKey ip) enumerationWindowSeconds
    simp only [hq]
    cases hb : (c == 1) <;>
      simp [hb, hf.1, hf.2.1, hf.2.2.1, hf.2.2.2, hg.1, hg.2.1, hg.2.2.1, hg.2.2.2]

/-- Helper: when the enumeration check passes, the enumeration-counter
increment succeeds. -/
theorem incEnum_ok (w : World) (ip : String)
    (h : checkEnumerationLimit w ip = .ok ()) :
    ∃ w1, incrementEnumerationCounter w ip = (.ok (), w1) := by
  unfold checkEnumerationLimit at h
  unfold incrementEnumerationCounter vincr
  rcases hv : vlookup w (enumerationKey ip) with _ | ⟨v, t⟩
  · simp only [hv]
    exact ⟨_, rfl⟩
  · cases v with
    | counter n =>
      simp only [hv]
      split
      · exact ⟨_, rfl⟩
      · exact ⟨_, rfl⟩
    | json s =>
      simp only [vget, hv] at h
      exact absurd h (by simp)

/-- Claim C8: a request for an email (after lowercasing and trimming)
with no matching user never invokes the email sender (the email-gateway
call counter is untouched) and stores no token — in every case — and,
whenever the origin passes the enumeration guard, it returns exactly
sent = false and needs_signup = true with the origin enumeration counter
incremented exactly as one _increment_enumeration_counter call. -/
theorem claim_C8 (cfg : AuthConfig) (w : World) (email ip ua : String)
    (hu : getUserByEmail w (strTrim (strLower email)) = none)
    (hlog : ∀ n, w.logOracle n = true) :
    (requestMagicLink cfg w email ip ua).2.emailIdx = w.emailIdx
    ∧ (requestMagicLink cfg w email ip ua).2.tokens = w.tokens
    ∧ (checkEnumerationLimit w ip = .ok () →
        (requestMagicLink cfg w email ip ua).1 = .ok ⟨false, true⟩
        ∧ (requestMagicLink cfg w email ip ua).2.kv (enumerationKey ip)
            = ((incrementEnumerationCounter w ip).2).kv (enumerationKey ip)) := by
  unfold requestMagicLink
  rcases hce : checkEnumerationLimit w ip with e | u0
  · simp only [hce]
    exact ⟨trivial, trivial, fun hok => absurd hok (by simp)⟩
  · obtain ⟨w1, hinc⟩ := incEnum_ok w ip hce
    have hfr := incEnum_frame w ip
    simp only [hinc] at hfr
    simp only [hce, hu, hinc]
    unfold securityLog
    simp only [hfr.2.2.1, hfr.2.2.2, hlog, if_true]
    exact ⟨hfr.1, hfr.2.1, fun _ => ⟨trivial, trivial⟩⟩

/-- Witness for claim C8 at the concrete base fixture. -/
theorem claim_C8_witness :
    (requestMagicLink cfgDefault baseWorld "zoe@nowhere.test" "3.3.3.3" "ua").2.emailIdx
      = baseWorld.emailIdx
    ∧ (requestMagicLink cfgDefault baseWorld "zoe@nowhere.test" "3.3.3.3" "ua").2.tokens
      = baseWorld.tokens
    ∧ (checkEnumerationLimit baseWorld "3.3.3.3" = .ok () →
        (requestMagicLink cfgDefault baseWorld "zoe@nowhere.test" "3.3.3.3" "ua").1
          = .ok ⟨false, true⟩
        ∧ (requestMagicLink cfgDefault baseWorld "zoe@nowhere.test" "3.3.3.3" "ua").2.kv
            (enumerationKey "3.3.3.3")
          = ((incrementEnumerationCounter baseWorld "3.3.3.3").2).kv (enumerationKey "3.3.3.3")) :=
  claim_C8 cfgDefault baseWorld "zoe@nowhere.test" "3.3.3.3" "ua" rfl (fun _ => rfl)

/-! ### Claim C7 -/

/-- Helper: one unknown-email request below the enumeration limit
returns needs-signup and advances the origin counter from k to k + 1
with the full window expiry, leaving users, clock and log oracle
untouched. -/
theorem requestUnknown_step (cfg : AuthConfig) (w : World) (email ip ua : String) (k : Nat)
    (hu : getUserByEmail w (strTrim (strLower email)) = none)
    (hlog : ∀ n, w.logOracle n = true)
    (hk : (vlookup w (enumerationKey ip) = none ∧ k = 0)
        ∨ (vlookup w (enumerationKey ip)
              = some ⟨.counter k, some (w.now + enumerationWindowSeconds)⟩
            ∧ 0 < k ∧ k < enumerationLimit)) :
    (requestMagicLink cfg w email ip ua).1 = .ok ⟨false, true⟩
    ∧ (requestMagicLink cfg w email ip ua).2.users = w.users
    ∧ (requestMagicLink cfg w email ip ua).2.now = w.now
    ∧ (requestMagicLink cfg w email ip ua).2.logOracle = w.logOracle
    ∧ vlookup (requestMagicLink cfg w email ip ua).2 (enumerationKey ip)
        = some ⟨.counter (k + 1), some (w.now + enumerationWindowSeconds)⟩ := by
  have hlt : w.now < w.now + enumerationWindowSeconds := by
    unfold enumerationWindowSeconds
    omega
  rcases hk with ⟨hnone, hk0⟩ | ⟨hsome, hkpos, hklt⟩
  · subst hk0
    have hce : checkEnumerationLimit w ip = .ok () := by
      unfold checkEnumerationLimit vget
      rw [hnone]
      rfl
    unfold requestMagicLink
    simp only [hce, hu]
    unfold incrementEnumerationCounter vincr
    simp only [hnone]
    unfold vexpire vlookup kvSet securityLog
    simp [hlt, hlog]
  · have hge : ¬ k ≥ enumerationLimit := by omega
    have hce : checkEnumerationLimit w ip = .ok () := by
      unfold checkEnumerationLimit vget
      rw [hsome]
      simp [hge]
    have hne1 : (k + 1 == 1) = false := by
      rw [beq_eq_false_iff_ne]
      omega
    unfold requestMagicLink
    simp only [hce, hu]
    unfold incrementEnumerationCounter vincr
    simp only [hsome, hne1]
    unfold vlookup kvSet securityLog
    simp [hlt, hlog]

/-- Helper: once the origin counter has reached the limit, any request
from that origin fails with RateLimited carrying the full window as
retry-after, before any other effect (the state is returned unchanged). -/
theorem requestLimited_step (cfg : AuthConfig) (w : World) (email ip ua : String) (k : Nat)
    (hsome : vlookup w (enumerationKey ip)
        = some ⟨.counter k, some (w.now + enumerationWindowSeconds)⟩)
    (hge : k ≥ enumerationLimit) :
    requestMagicLink cfg w email ip ua
      = (.error (.rateLimited enumerationWindowSeconds), w) := by
  have httl : vttl w (enumerationKey ip) = (enumerationWindowSeconds : Int) := by
    unfold vttl
    rw [hsome]
    simp
  have hra : retryAfter (vttl w (enumerationKey ip)) = enumerationWindowSeconds := by
    rw [httl]
    unfold retryAfter enumerationWindowSeconds
    decide
  have hce : checkEnumerationLimit w ip
      = .error (.rateLimited enumerationWindowSeconds) := by
    unfold checkEnumerationLimit vget
    rw [hsome]
    simp [hge, hra]
  unfold requestMagicLink
  simp only [hce]

/-- Claim C7: after three requests for unknown emails from one origin, a
fourth request from that origin — for ANY email and over ANY users table,
showing the rejection is decided before any user-store lookup — fails
with RateLimited, with the state unchanged. -/
theorem claim_C7 (cfg : AuthConfig) (w0 : World) (e1 e2 e3 ip ua : String)
    (h1 : getUserByEmail w0 (strTrim (strLower e1)) = none)
    (h2 : getUserByEmail w0 (strTrim (strLower e2)) = none)
    (h3 : getUserByEmail w0 (strTrim (strLower e3)) = none)
    (h0 : vlookup w0 (enumerationKey ip) = none)
    (hlog : ∀ n, w0.logOracle n = true) :
    (requestMagicLink cfg w0 e1 ip ua).1 = .ok ⟨false, true⟩
    ∧ (requestMagicLink cfg (requestMagicLink cfg w0 e1 ip ua).2 e2 ip ua).1
        = .ok ⟨false, true⟩
    ∧ (requestMagicLink cfg
        (requestMagicLink cfg (requestMagicLink cfg w0 e1 ip ua).2 e2 ip ua).2
        e3 ip ua).1 = .ok ⟨false, true⟩
    ∧ (∀ us2 e4,
        requestMagicLink cfg
          { (requestMagicLink cfg
              (requestMagicLink cfg (requestMagicLink cfg w0 e1 ip ua).2 e2 ip ua).2
              e3 ip ua).2 with users := us2 }
          e4 ip ua
        = (.error (.rateLimited enumerationWindowSeconds),
           { (requestMagicLink cfg
               (requestMagicLink cfg (requestMagicLink cfg w0 e1 ip ua).2 e2 ip ua).2
               e3 ip ua).2 with users := us2 })) := by
  have s1 := requestUnknown_step cfg w0 e1 ip ua 0 h1 hlog (Or.inl ⟨h0, rfl⟩)
  have h2a : getUserByEmail (requestMagicLink cfg w0 e1 ip ua).2 (strTrim (strLower e2))
      = none := by
    unfold getUserByEmail
    rw [s1.2.1]
    exact h2
  have hlog1 : ∀ n, (requestMagicLink cfg w0 e1 ip ua).2.logOracle n = true := by
    intro n
    rw [s1.2.2.2.1]
    exact hlog n
  have hk1 : vlookup (requestMagicLink cfg w0 e1 ip ua).2 (enumerationKey ip)
      = some ⟨.counter 1,
          some ((requestMagicLink cfg w0 e1 ip ua).2.now + enumerationWindowSeconds)⟩ := by
    rw [s1.2.2.1]
    exact s1.2.2.2.2
  have s2 := requestUnknown_step cfg (requestMagicLink cfg w0 e1 ip ua).2 e2 ip ua 1
    h2a hlog1 (Or.inr ⟨hk1, by decide, by decide⟩)
  have h3a : getUserByEmail
      (requestMagicLink cfg (requestMagicLink cfg w0 e1 ip ua).2 e2 ip ua).2
      (strTrim (strLower e3)) = none := by
    unfold getUserByEmail
    rw [s2.2.1, s1.2.1]
    exact h3
  have hlog2 : ∀ n,
      (requestMagicLink cfg (requestMagicLink cfg w0 e1 ip ua).2 e2 ip ua).2.logOracle n
      = true := by
    intro n
    rw [s2.2.2.2.1]
    exact hlog1 n
  have hk2 : vlookup
      (requestMagicLink cfg (requestMagicLink cfg w0 e1 ip ua).2 e2 ip ua).2
      (enumerationKey ip)
      = some ⟨.counter 2,
          some ((requestMagicLink cfg (requestMagicLink cfg w0 e1 ip ua).2 e2 ip ua).2.now
            + enumerationWindowSeconds)⟩ := by
    rw [s2.2.2.1]
    exact s2.2.2.2.2
  have s3 := requestUnknown_step cfg
    (requestMagicLink cfg (requestMagicLink cfg w0 e1 ip ua).2 e2 ip ua).2 e3 ip ua 2
    h3a hlog2 (Or.inr ⟨hk2, by decide, by decide⟩)
  have hk3 : vlookup
      (requestMagicLink cfg
        (requestMagicLink cfg (requestMagicLink cfg w0 e1 ip ua).2 e2 ip ua).2 e3 ip ua).2
      (enumerationKey ip)
      = some ⟨.counter 3,
          some ((requestMagicLink cfg
              (requestMagicLink cfg (requestMagicLink cfg w0 e1 ip ua).2 e2 ip ua).2
              e3 ip ua).2.now + enumerationWindowSeconds)⟩ := by
    rw [s3.2.2.1]
    exact s3.2.2.2.2
  refine ⟨s1.1, s2.1, s3.1, fun us2 e4 => ?_⟩
  exact requestLimited_step cfg _ e4 ip ua 3 hk3 (by decide)

/-- Witness for claim C7: three unknown emails, then a fourth request
for an email that does exist is still rejected. -/
theorem claim_C7_witness :
    (requestMagicLink cfgDefault baseWorld "a1@x.test" "6.6.6.6" "ua").1 = .ok ⟨false, true⟩
    ∧ (requestMagicLink cfgDefault
        (requestMagicLink cfgDefault baseWorld "a1@x.test" "6.6.6.6" "ua").2
        "a2@x.test" "6.6.6.6" "ua").1 = .ok ⟨false, true⟩
    ∧ (requestMagicLink cfgDefault
        (requestMagicLink cfgDefault
          (requestMagicLink cfgDefault baseWorld "a1@x.test" "6.6.6.6" "ua").2
          "a2@x.test" "6.6.6.6" "ua").2
        "a3@x.test" "6.6.6.6" "ua").1 = .ok ⟨false, true⟩
    ∧ requestMagicLink cfgDefault
        { (requestMagicLink cfgDefault
            (requestMagicLink cfgDefault
              (requestMagicLink cfgDefault baseWorld "a1@x.test" "6.6.6.6" "ua").2
              "a2@x.test" "6.6.6.6" "ua").2
            "a3@x.test" "6.6.6.6" "ua").2 with users := baseWorld.users }
        "ada@crm.test" "6.6.6.6" "ua"
      = (.error (.rateLimited 900),
         { (requestMagicLink cfgDefault
             (requestMagicLink cfgDefault
               (requestMagicLink cfgDefault baseWorld "a1@x.test" "6.6.6.6" "ua").2
               "a2@x.test" "6.6.6.6" "ua").2
             "a3@x.test" "6.6.6.6" "ua").2 with users := baseWorld.users }) := by
  have h := claim_C7 cfgDefault baseWorld "a1@x.test" "a2@x.test" "a3@x.test" "6.6.6.6" "ua"
    rfl rfl rfl rfl (fun _ => rfl)
  exact ⟨h.1, h.2.1, h.2.2.1, h.2.2.2 baseWorld.users "ada@crm.test"⟩

/-! ### Claim C6 -/

/-- Helper: the retry-after derivation max(ttl, 1) is the identity on a
window of at least one second. -/
theorem retryAfter_window (W : Nat) (h : 1 ≤ W) : retryAfter (W : Int) = W := by
  unfold retryAfter
  rw [max_eq_left (by exact_mod_cast h)]
  exact Int.toNat_natCast W

/-- Helper: one request for an existing user with the per-email counter
at k returns sent when k + 1 is within the threshold and RateLimited with
retry-after equal to the full window otherwise; in both cases the counter
advances to k + 1 and its TTL is reset to the full window. -/
theorem requestKnown_step (cfg : AuthConfig) (w : World) (email ip ua : String)
    (u : UserRow) (k : Nat)
    (hcfg : cfg.valid)
    (hu : getUserByEmail w (strTrim (strLower email)) = some u)
    (hlog : ∀ n, w.logOracle n = true)
    (hemail : ∀ n, w.emailOracle n = true)
    (henum : vlookup w (enumerationKey ip) = none)
    (hk : (vlookup w (rateLimitKey (strTrim (strLower email))) = none ∧ k = 0)
        ∨ (0 < k ∧ vlookup w (rateLimitKey (strTrim (strLower email)))
            = some ⟨.counter k, some (w.now + windowSeconds cfg)⟩)) :
    (requestMagicLink cfg w email ip ua).1
      = (if k + 1 ≤ cfg.rateLimitAttempts then .ok ⟨true, false⟩
         else .error (.rateLimited (windowSeconds cfg)))
    ∧ (requestMagicLink cfg w email ip ua).2.users = w.users
    ∧ (requestMagicLink cfg w email ip ua).2.now = w.now
    ∧ (requestMagicLink cfg w email ip ua).2.logOracle = w.logOracle
    ∧ (requestMagicLink cfg w email ip ua).2.emailOracle = w.emailOracle
    ∧ vlookup (requestMagicLink cfg w email ip ua).2 (enumerationKey ip) = none
    ∧ vlookup (requestMagicLink cfg w email ip ua).2
        (rateLimitKey (strTrim (strLower email)))
      = some ⟨.counter (k + 1), some (w.now + windowSeconds cfg)⟩ := by
  have hWpos : 0 < windowSeconds cfg := by
    have h5 := hcfg.2.2.2.2.2.2.2.1
    unfold windowSeconds
    omega
  have hW1 : 1 ≤ windowSeconds cfg := hWpos
  have hlt : w.now < w.now + windowSeconds cfg := by omega
  have hce : checkEnumerationLimit w ip = .ok () := by
    unfold checkEnumerationLimit vget
    rw [henum]
    rfl
  have hrne : ∀ a b, rateLimitKey a ≠ enumerationKey b := rateLimitKey_ne_enumerationKey
  have hen : ∀ a b, enumerationKey a ≠ rateLimitKey b :=
    fun a b h => rateLimitKey_ne_enumerationKey b a h.symm
  have hmax : max ((windowSeconds cfg : Int)) 1 = (windowSeconds cfg : Int) :=
    max_eq_left (by exact_mod_cast hW1)
  rcases hk with ⟨hnone, hk0⟩ | ⟨hkpos, hsome⟩
  · subst hk0
    by_cases hle : 0 + 1 ≤ cfg.rateLimitAttempts
    · have hgt : ¬ (1 > cfg.rateLimitAttempts) := by omega
      unfold requestMagicLink
      simp only [hce, hu]
      unfold checkRateLimit vincr
      simp only [hnone]
      unfold vexpire vlookup kvSet storeMagicLinkToken securityLog sendMagicLinkEmail
      simp [hlt, hlog, hemail, hgt, hle, hrne, hen, henum]
      exact henum
    · have hgt : 1 > cfg.rateLimitAttempts := by omega
      unfold requestMagicLink
      simp only [hce, hu]
      unfold checkRateLimit vincr
      simp only [hnone]
      unfold vexpire vttl retryAfter vlookup kvSet
      simp [hlt, hlog, hemail, hgt, hle, hrne, hen, henum, Nat.cast_add,
        add_sub_cancel_left, hmax, Int.toNat_natCast]
      exact henum
  · by_cases hle : k + 1 ≤ cfg.rateLimitAttempts
    · have hgt : ¬ (k + 1 > cfg.rateLimitAttempts) := by omega
      unfold requestMagicLink
      simp only [hce, hu]
      unfold checkRateLimit vincr
      simp only [hsome]
      unfold vexpire vlookup kvSet storeMagicLinkToken securityLog sendMagicLinkEmail
      simp [hlt, hlog, hemail, hgt, hle, hrne, hen, henum]
      exact henum
    · have hgt : k + 1 > cfg.rateLimitAttempts := by omega
      unfold requestMagicLink
      simp only [hce, hu]
      unfold checkRateLimit vincr
      simp only [hsome]
      unfold vexpire vttl retryAfter vlookup kvSet
      simp [hlt, hlog, hemail, hgt, hle, hrne, hen, henum, Nat.cast_add,
        add_sub_cancel_left, hmax, Int.toNat_natCast]
      exact henum

/-- Helper: invariant of k repeated requests for the same existing user
from a clean start — the counter sits at exactly k with a full-window
expiry, and the (k+1)-th call succeeds exactly when k + 1 is within the
threshold, failing with retry-after = the full window otherwise. -/
theorem reqIter_inv (cfg : AuthConfig) (w0 : World) (email ip ua : String) (u : UserRow)
    (hcfg : cfg.valid)
    (hu : getUserByEmail w0 (strTrim (strLower email)) = some u)
    (hlog : ∀ n, w0.logOracle n = true)
    (hemail : ∀ n, w0.emailOracle n = true)
    (henum : vlookup w0 (enumerationKey ip) = none)
    (h0 : vlookup w0 (rateLimitKey (strTrim (strLower email))) = none) :
    ∀ k,
      (requestMagicLink cfg (reqIter cfg email ip ua k w0) email ip ua).1
        = (if k + 1 ≤ cfg.rateLimitAttempts then .ok ⟨true, false⟩
           else .error (.rateLimited (windowSeconds cfg)))
      ∧ (reqIter cfg email ip ua k w0).users = w0.users
      ∧ (reqIter cfg email ip ua k w0).now = w0.now
      ∧ (reqIter cfg email ip ua k w0).logOracle = w0.logOracle
      ∧ (reqIter cfg email ip ua k w0).emailOracle = w0.emailOracle
      ∧ vlookup (reqIter cfg email ip ua k w0) (enumerationKey ip) = none
      ∧ (k = 0 → vlookup (reqIter cfg email ip ua k w0)
            (rateLimitKey (strTrim (strLower email))) = none)
      ∧ (0 < k → vlookup (reqIter cfg email ip ua k w0)
            (rateLimitKey (strTrim (strLower email)))
          = some ⟨.counter k, some (w0.now + windowSeconds cfg)⟩) := by
  intro k
  induction k with
  | zero =>
    have hstep := requestKnown_step cfg w0 email ip ua u 0 hcfg hu hlog hemail henum
      (Or.inl ⟨h0, rfl⟩)
    exact ⟨hstep.1, rfl, rfl, rfl, rfl, henum, fun _ => h0, fun hpos => absurd hpos (by omega)⟩
  | succ k ih =>
    obtain ⟨ihr, ihu, ihn, ihl, ihe, ihenum, ihrl0, ihrlpos⟩ := ih
    have hu2 : getUserByEmail (reqIter cfg email ip ua k w0) (strTrim (strLower email))
        = some u := by
      unfold getUserByEmail
      rw [ihu]
      exact hu
    have hlog2 : ∀ n, (reqIter cfg email ip ua k w0).logOracle n = true := by
      intro n
      rw [ihl]
      exact hlog n
    have hemail2 : ∀ n, (reqIter cfg email ip ua k w0).emailOracle n = true := by
      intro n
      rw [ihe]
      exact hemail n
    have hk2 : (vlookup (reqIter cfg email ip ua k w0)
          (rateLimitKey (strTrim (strLower email))) = none ∧ k = 0)
        ∨ (0 < k ∧ vlookup (reqIter cfg email ip ua k w0)
              (rateLimitKey (strTrim (strLower email)))
            = some ⟨.counter k, some ((reqIter cfg email ip ua k w0).now + windowSeconds cfg)⟩) := by
      rcases Nat.eq_zero_or_pos k with hz | hp
      · exact Or.inl ⟨ihrl0 hz, hz⟩
      · refine Or.inr ⟨hp, ?_⟩
        rw [ihn]
        exact ihrlpos hp
    have hstep := requestKnown_step cfg (reqIter cfg email ip ua k w0) email ip ua u k
      hcfg hu2 hlog2 hemail2 ihenum hk2
    have hiter : reqIter cfg email ip ua (k + 1) w0
        = (requestMagicLink cfg (reqIter cfg email ip ua k w0) email ip ua).2 := rfl
    refine ⟨?_, ?_, ?_, ?_, ?_, ?_, fun hz => absurd hz (by omega), fun _ => ?_⟩
    · -- result of the (k+2)-th call needs the NEXT step; here prove via step at k+1 state
      have hu3 : getUserByEmail (reqIter cfg email ip ua (k + 1) w0)
          (strTrim (strLower email)) = some u := by
        unfold getUserByEmail
        rw [hiter, hstep.2.1, ihu]
        exact hu
      have hlog3 : ∀ n, (reqIter cfg email ip ua (k + 1) w0).logOracle n = true := by
        intro n
        rw [hiter, hstep.2.2.2.1, ihl]
        exact hlog n
      have hemail3 : ∀ n, (reqIter cfg email ip ua (k + 1) w0).emailOracle n = true := by
        intro n
        rw [hiter, hstep.2.2.2.2.1, ihe]
        exact hemail n
      have henum3 : vlookup (reqIter cfg email ip ua (k + 1) w0) (enumerationKey ip)
          = none := by
        rw [hiter]
        exact hstep.2.2.2.2.2.1
      have hk3 : (vlookup (reqIter cfg email ip ua (k + 1) w0)
            (rateLimitKey (strTrim (strLower email))) = none ∧ k + 1 = 0)
          ∨ (0 < k + 1 ∧ vlookup (reqIter cfg email ip ua (k + 1) w0)
                (rateLimitKey (strTrim (strLower email)))
              = some ⟨.counter (k + 1),
                  some ((reqIter cfg email ip ua (k + 1) w0).now + windowSeconds cfg)⟩) := by
        refine Or.inr ⟨by omega, ?_⟩
        rw [hiter, hstep.2.2.1, ihn]
        have h := hstep.2.2.2.2.2.2
        rw [ihn] at h
        exact h
      exact (requestKnown_step cfg (reqIter cfg email ip ua (k + 1) w0) email ip ua u (k + 1)
        hcfg hu3 hlog3 hemail3 henum3 hk3).1
    · rw [hiter, hstep.2.1]
      exact ihu
    · rw [hiter, hstep.2.2.1]
      exact ihn
    · rw [hiter, hstep.2.2.2.1]
      exact ihl
    · rw [hiter, hstep.2.2.2.2.1]
      exact ihe
    · rw [hiter]
      exact hstep.2.2.2.2.2.1
    · rw [hiter]
      have h := hstep.2.2.2.2.2.2
      rw [ihn] at h
      exact h

/-- Claim C6: with the per-email threshold configured to N, N
consecutive requests for an existing user succeed, the (N+1)-th and
every later call while limited fail with RateLimited whose retry-after
equals the full window — a positive constant, so the retry-after under
repeated probing never decreases below a prior value. -/
theorem claim_C6 (cfg : AuthConfig) (w0 : World) (email ip ua : String) (u : UserRow)
    (hcfg : cfg.valid)
    (hu : getUserByEmail w0 (strTrim (strLower email)) = some u)
    (hlog : ∀ n, w0.logOracle n = true)
    (hemail : ∀ n, w0.emailOracle n = true)
    (henum : vlookup w0 (enumerationKey ip) = none)
    (h0 : vlookup w0 (rateLimitKey (strTrim (strLower email))) = none) :
    (∀ k, k < cfg.rateLimitAttempts →
      (requestMagicLink cfg (reqIter cfg email ip ua k w0) email ip ua).1
        = .ok ⟨true, false⟩)
    ∧ (∀ j, cfg.rateLimitAttempts ≤ j →
      (requestMagicLink cfg (reqIter cfg email ip ua j w0) email ip ua).1
        = .error (.rateLimited (windowSeconds cfg)))
    ∧ 0 < windowSeconds cfg := by
  have hW : 0 < windowSeconds cfg := by
    have h5 := hcfg.2.2.2.2.2.2.2.1
    unfold windowSeconds
    omega
  refine ⟨?_, ?_, hW⟩
  · intro k hk
    have h := (reqIter_inv cfg w0 email ip ua u hcfg hu hlog hemail henum h0 k).1
    rw [if_pos (by omega)] at h
    exact h
  · intro j hj
    have h := (reqIter_inv cfg w0 email ip ua u hcfg hu hlog hemail henum h0 j).1
    rw [if_neg (by omega)] at h
    exact h

/-- Witness for claim C6 with the default configuration (threshold 5):
call 1 succeeds, calls 6 and 7 are limited with equal retry-after. -/
theorem claim_C6_witness :
    (requestMagicLink cfgDefault (reqIter cfgDefault "ada@crm.test" "ip9" "ua" 0 baseWorld)
        "ada@crm.test" "ip9" "ua").1 = .ok ⟨true, false⟩
    ∧ (requestMagicLink cfgDefault (reqIter cfgDefault "ada@crm.test" "ip9" "ua" 5 baseWorld)
        "ada@crm.test" "ip9" "ua").1 = .error (.rateLimited 900)
    ∧ (requestMagicLink cfgDefault (reqIter cfgDefault "ada@crm.test" "ip9" "ua" 6 baseWorld)
        "ada@crm.test" "ip9" "ua").1 = .error (.rateLimited 900)
    ∧ 0 < windowSeconds cfgDefault := by
  have h := claim_C6 cfgDefault baseWorld "ada@crm.test" "ip9" "ua" userAda
    (by decide) rfl (fun _ => rfl) (fun _ => rfl) rfl rfl
  exact ⟨h.1 0 (by decide), h.2.1 5 (by decide), h.2.1 6 (by decide), h.2.2⟩
